import Mathlib

/-!
Verification development for the URL tracking module of the alacritty
repository (src/alacritty/src/url.rs).

The module scans rendered terminal cells in grid order, feeds each
character to an external URL classifier, and maintains a list of
committed multi-segment URL spans together with a query layer
(find_at, highlighted).

Types defined by other crates of the repository (index.rs Point with
its sub operation and derived lexicographic order, the config and
mouse structures) are not part of the provided sources and are
modelled from the spec where noted.  The character classifier
(urlocator crate) is external to the repository and is modelled as an
opaque deterministic state machine, exactly as the spec treats it.
-/

/-- Grid point.  Embeds alacritty_terminal index.rs Point with fields
line and column (row-major screen coordinates). -/
structure Point where
  line : Nat
  column : Nat
deriving DecidableEq, Repr

/-- Embeds Rust Point::default(), the origin (0, 0). -/
def Point.default : Point := ⟨0, 0⟩

/-- Linear scan-order index of a point in a grid of width w. -/
def Point.toIdx (p : Point) (w : Nat) : Nat := p.line * w + p.column

/-- Point at a given linear scan-order index in a grid of width w. -/
def Point.ofIdx (w : Nat) (i : Nat) : Point := ⟨i / w, i % w⟩

/-- Modelled from the spec: retreat(p, width, n) of section 4.1 of the
spec, embedding Point::sub from index.rs which is not among the
provided sources: subtract n cells in scan order, borrowing whole rows
of width cells as needed; never produces a negative row (truncated
subtraction saturates at the grid origin). -/
def Point.sub (p : Point) (w : Nat) (n : Nat) : Point :=
  Point.ofIdx w (p.toIdx w - n)

/-- Modelled from the spec: scan-order comparison of grid points,
embedding the derived lexicographic Ord on Point from index.rs (line
first, then column), used by the inclusive range containment test in
find_at. -/
def Point.leb (a b : Point) : Bool :=
  a.line < b.line || (a.line = b.line && a.column ≤ b.column)

/-- Foreground color.  Embeds alacritty_terminal Rgb. -/
structure Rgb where
  r : Nat
  g : Nat
  b : Nat
deriving DecidableEq, Repr

/-- Embeds Rgb::default(), black. -/
def Rgb.default : Rgb := ⟨0, 0, 0⟩

/-- The three cell flags read by url.rs (WIDE_CHAR,
LEADING_WIDE_CHAR_SPACER, WRAPLINE); the remaining bits of the Rust
Flags bitset are never inspected by the module. -/
structure Flags where
  wide_char : Bool
  leading_wide_char_spacer : Bool
  wrapline : Bool
deriving DecidableEq, Repr

/-- Embeds the fields of RenderableCell read by url.rs (character,
point, fg, flags); the remaining fields (zerowidth, bg, bg_alpha,
is_match) are never read by the module. -/
structure RenderableCell where
  character : Char
  point : Point
  fg : Rgb
  flags : Flags
deriving DecidableEq, Repr

/-- Embeds RenderLine: one contiguous single-color segment, inclusive
at both ends.  The Rust field end is a Lean keyword and is embedded as
end_. -/
structure RenderLine where
  start : Point
  end_ : Point
  color : Rgb
deriving DecidableEq, Repr

/-- Inhabitant used to totalize the two panicking list indexings of
Url::start and Url::end; the committed-span invariant proved below
shows it is never reached on committed spans. -/
def RenderLine.default : RenderLine := ⟨Point.default, Point.default, Rgb.default⟩

/-- Embeds Url: a committed span with its segment list, the current
trailing-exclude count and the grid width stored at creation. -/
structure Url where
  lines : List RenderLine
  end_offset : Nat
  num_cols : Nat
deriving DecidableEq, Repr

/-- Embeds Url::start, which indexes lines[0] (a panic on an empty
segment list in Rust, here totalized by the default segment). -/
def Url.start (u : Url) : Point :=
  (u.lines.headD RenderLine.default).start

/-- Embeds Url::end: the last segment end point retreated by
end_offset cells using the stored grid width (again totalized by the
default segment in the empty case, where Rust panics). -/
def Url.end_ (u : Url) : Point :=
  ((u.lines.getLastD RenderLine.default).end_).sub u.num_cols u.end_offset

/-- Embeds urlocator UrlLocation: the classification returned by the
external character classifier.  Url carries the total length and the
trailing-exclude count (u16 values embedded as Nat). -/
inductive UrlLocation where
  | Url : Nat → Nat → UrlLocation
  | Scheme : UrlLocation
  | Reset : UrlLocation
deriving DecidableEq, Repr

/-- Opaque deterministic external classifier over state type σ, as the
spec section 6 describes it: a fresh-instance constant and a per
character advance returning the new state and a classification. -/
structure Classifier (σ : Type) where
  init : σ
  advance : σ → Char → σ × UrlLocation

/-- Embeds the Urls tracker state: classifier state, committed spans,
pending scheme buffer, last visited end point, last classification. -/
structure Urls (σ : Type) where
  locator : σ
  urls : List Url
  scheme_buffer : List (Point × Rgb)
  last_point : Option Point
  state : UrlLocation
deriving DecidableEq, Repr

/-- Embeds Urls::new / Urls::default: fresh classifier, empty lists,
Reset state, no last point. -/
def Urls.new {σ : Type} (C : Classifier σ) : Urls σ :=
  { locator := C.init
    urls := []
    scheme_buffer := []
    last_point := none
    state := UrlLocation.Reset }

/-- Embeds Urls::reset: re-create the classifier, reset the state and
clear the scheme buffer; committed spans and last_point untouched. -/
def Urls.reset {σ : Type} (s : Urls σ) (C : Classifier σ) : Urls σ :=
  { s with locator := C.init, state := UrlLocation.Reset, scheme_buffer := [] }

/-- Embeds the span-level body of Urls::extend_url (the mutation of
the unwrapped last span): if the last segment exists and has the same
color its end is moved to endp, otherwise a new segment is appended;
the trailing-exclude count is overwritten in both cases. -/
def Url.extend_line (u : Url) (start endp : Point) (color : Rgb) (end_offset : Nat) : Url :=
  let lines :=
    if (u.lines.getLast?).map RenderLine.color = some color then
      u.lines.dropLast ++ [{ u.lines.getLastD RenderLine.default with end_ := endp }]
    else
      u.lines ++ [{ start := start, end_ := endp, color := color }]
  { u with lines := lines, end_offset := end_offset }

/-- Embeds Urls::extend_url: apply the span-level extension to the
last committed span.  The Rust code unwraps urls.last_mut(), a panic
when no span exists; that branch is embedded as the identity and the
committed-span theorems below show it is unreachable from reachable
tracker states. -/
def Urls.extend_url {σ : Type} (s : Urls σ) (start endp : Point) (color : Rgb)
    (end_offset : Nat) : Urls σ :=
  match s.urls.getLast? with
  | some u => { s with urls := s.urls.dropLast ++ [u.extend_line start endp color end_offset] }
  | none => s

/-- Embeds the transition table of Urls::update (the match on the new
classification paired with the previous one, after the classifier has
advanced): commit and flush on Scheme to Url, extend on Url to Url,
buffer on Scheme, reset on Reset, and do nothing otherwise. -/
def Urls.update_transition {σ : Type} (C : Classifier σ) (num_cols : Nat)
    (cell : RenderableCell) (endp : Point) (last_state : UrlLocation)
    (s2 : Urls σ) : Urls σ :=
  match s2.state, last_state with
  | UrlLocation.Url _ eoff, UrlLocation.Scheme =>
      let s2a : Urls σ := { s2 with
        urls := s2.urls ++ [({ lines := [], end_offset := eoff, num_cols := num_cols } : Url)] }
      let s2b : Urls σ := { s2a with scheme_buffer := [] }
      let s2c := s2a.scheme_buffer.foldl
        (fun (t : Urls σ) (pc : Point × Rgb) => t.extend_url pc.1 pc.1 pc.2 eoff) s2b
      s2c.extend_url cell.point endp cell.fg eoff
  | UrlLocation.Url _ eoff, UrlLocation.Url _ _ =>
      s2.extend_url cell.point endp cell.fg eoff
  | UrlLocation.Scheme, _ =>
      { s2 with scheme_buffer := s2.scheme_buffer ++ [(cell.point, cell.fg)] }
  | UrlLocation.Reset, _ => s2.reset C
  | _, _ => s2

/-- Embeds Urls::update, the per-cell tracker driver. -/
def Urls.update {σ : Type} (C : Classifier σ) (s : Urls σ) (num_cols : Nat)
    (cell : RenderableCell) : Urls σ :=
  let point := cell.point
  let endp := if cell.flags.wide_char then { point with column := point.column + 1 } else point
  let s0 := if point ≠ Point.default ∧ some (point.sub num_cols 1) ≠ s.last_point
            then s.reset C else s
  let s1 := { s0 with last_point := some endp }
  if cell.flags.leading_wide_char_spacer then
    match s1.state with
    | UrlLocation.Url _ eoff =>
        s1.extend_url point endp cell.fg (if eoff ≠ 0 then eoff + 1 else eoff)
    | _ => s1
  else
    let adv := C.advance s1.locator cell.character
    let s3 := Urls.update_transition C num_cols cell endp s1.state
      { s1 with locator := adv.1, state := adv.2 }
    if cell.point.column + 1 = num_cols ∧ cell.flags.wrapline = false
    then s3.reset C else s3

/-- Inclusive scan-order containment test used by find_at, embedding
(url.start()..=url.end()).contains(&point) under the derived
lexicographic order on Point. -/
def Url.contains_point (u : Url) (p : Point) : Bool :=
  Point.leb u.start p && Point.leb p u.end_

/-- Embeds Urls::find_at: first committed span, in commit order, whose
inclusive range contains the point; none when no span contains it. -/
def Urls.find_at {σ : Type} (s : Urls σ) (point : Point) : Option Url :=
  s.urls.find? (fun u => u.contains_point point)

/-- Embeds glutin ElementState. -/
inductive ElementState where
  | Pressed : ElementState
  | Released : ElementState
deriving DecidableEq, Repr

/-- Embeds glutin ModifiersState as its four modifier bits. -/
structure ModifiersState where
  shift : Bool
  ctrl : Bool
  alt : Bool
  logo : Bool
deriving DecidableEq, Repr

/-- Modelled from the spec: the pointer state consumed by highlighted
(the event.rs Mouse struct is not among the provided sources); only
the four fields read by url.rs are modelled. -/
structure Mouse where
  inside_text_area : Bool
  left_button_state : ElementState
  line : Nat
  column : Nat
deriving DecidableEq, Repr

/-- Modelled from the spec: the UI/config collaborator of section 6
(config.rs is not among the provided sources), reduced to the two
accessors highlighted reads: the configured required modifiers
(config.ui_config.mouse.url.mods()) and the optional launcher
(config.ui_config.mouse.url.launcher). -/
structure Config where
  url_mods : ModifiersState
  launcher : Option Unit
deriving DecidableEq, Repr

/-- Embeds Urls::highlighted: the UI-gated query over find_at. -/
def Urls.highlighted {σ : Type} (s : Urls σ) (config : Config) (mouse : Mouse)
    (mods : ModifiersState) (mouse_mode : Bool) (selection : Bool) : Option Url :=
  let required_mods :=
    if mouse_mode then { config.url_mods with shift := true } else config.url_mods
  if selection
      || !mouse.inside_text_area
      || config.launcher.isNone
      || required_mods ≠ mods
      || mouse.left_button_state = ElementState.Pressed
  then none
  else s.find_at ⟨mouse.line, mouse.column⟩

/-- Scripted classifier over state Nat used for concrete
instantiations: the state counts the characters fed so far and the
classification is read off a fixed script (Reset once the script is
exhausted). -/
def scriptClassifier (script : List UrlLocation) : Classifier Nat :=
  { init := 0, advance := fun n _ => (n + 1, script.getD n UrlLocation.Reset) }

/-- Classifier contract used by the safety invariant: a single advance
from a fresh classifier instance never reports InUrl.  The external
urlocator grammar satisfies this, since it must first consume a scheme
and its separator before ever reporting a URL. -/
def FreshNotUrl {σ : Type} (C : Classifier σ) : Prop :=
  ∀ ch len off, (C.advance C.init ch).2 ≠ UrlLocation.Url len off

/-- Tracker safety invariant: every committed span has a non-empty
segment list, a Reset classification is always accompanied by a fresh
classifier instance, and whenever the last reported classification is
InUrl at least one committed span exists (so the unwrap inside
extend_url is reachable only with a span present). -/
def UrlsInv {σ : Type} (C : Classifier σ) (s : Urls σ) : Prop :=
  (∀ u ∈ s.urls, u.lines ≠ []) ∧
  (s.state = UrlLocation.Reset → s.locator = C.init) ∧
  (∀ len off, s.state = UrlLocation.Url len off → s.urls ≠ [])

/-- Concrete single-segment span used to instantiate the theorems:
the cells (0,5) through (0,9) of a 10-column grid in one color. -/
def exUrl : Url :=
  { lines := [{ start := ⟨0, 5⟩, end_ := ⟨0, 9⟩, color := Rgb.default }]
    end_offset := 0
    num_cols := 10 }

/-- Concrete tracker state holding the single committed span exUrl. -/
def exUrls : Urls Nat :=
  { locator := 0
    urls := [exUrl]
    scheme_buffer := []
    last_point := some ⟨0, 9⟩
    state := UrlLocation.Reset }

/-- Concrete tracker state mid-URL: one committed span and an InUrl
classification, as reached after scanning a scheme and one URL cell. -/
def exUrlsInUrl : Urls Nat :=
  { locator := 6
    urls := [exUrl]
    scheme_buffer := []
    last_point := some ⟨0, 9⟩
    state := UrlLocation.Url 5 0 }

/-- Concrete configuration requiring no modifiers, with a launcher. -/
def exConfig : Config :=
  { url_mods := ⟨false, false, false, false⟩, launcher := some () }

/-- Concrete pointer state inside the text area over column 7. -/
def exMouse : Mouse :=
  { inside_text_area := true
    left_button_state := ElementState.Released
    line := 0
    column := 7 }

/-- Concrete spacer cell: a leading wide-char spacer in the last
column (column 2 of a 3-column grid) of a row without the soft-wrap
flag. -/
def exSpacerCell : RenderableCell :=
  { character := 'x'
    point := ⟨0, 2⟩
    fg := Rgb.default
    flags := { wide_char := false, leading_wide_char_spacer := true, wrapline := false } }

/-- Concrete mid-URL tracker on a 3-column grid whose last visited
cell is (0, 1), so that exSpacerCell is the immediately next cell. -/
def exUrlsSpacer : Urls Nat :=
  { locator := 4
    urls := [{ lines := [{ start := ⟨0, 0⟩, end_ := ⟨0, 1⟩, color := Rgb.default }]
               end_offset := 0
               num_cols := 3 }]
    scheme_buffer := []
    last_point := some ⟨0, 1⟩
    state := UrlLocation.Url 2 0 }

/-- Concrete in-scheme tracker: the scheme cell (0, 4) is buffered and
the classifier is fresh, ready for the confirming cell at (0, 5). -/
def exUrlsScheme : Urls Nat :=
  { locator := 0
    urls := []
    scheme_buffer := [(⟨0, 4⟩, Rgb.default)]
    last_point := some ⟨0, 4⟩
    state := UrlLocation.Scheme }

/-- Concrete plain cell at (0, 5), directly following (0, 4). -/
def exCellA : RenderableCell :=
  { character := 'a'
    point := ⟨0, 5⟩
    fg := Rgb.default
    flags := { wide_char := false, leading_wide_char_spacer := false, wrapline := false } }

/-- Concrete tracker with a stale pending-scheme buffer whose last
visited point (0, 9) is far from the cell (0, 5), so that feeding
exCellA to it skips cells and triggers the continuity reset. -/
def exUrlsStale : Urls Nat :=
  { locator := 2
    urls := []
    scheme_buffer := [(⟨0, 8⟩, Rgb.default)]
    last_point := some ⟨0, 9⟩
    state := UrlLocation.Scheme }

/-- Script classifier whose first advance confirms a URL, used to
exercise the scheme-to-URL commit. -/
def exC7 : Classifier Nat := scriptClassifier [UrlLocation.Url 3 0]

/-- Concrete plain cell in the last column (column 2 of a 3-column
grid) of a row without the soft-wrap flag. -/
def exHardBreakCell : RenderableCell :=
  { character := 'x'
    point := ⟨0, 2⟩
    fg := Rgb.default
    flags := { wide_char := false, leading_wide_char_spacer := false, wrapline := false } }

/-! Helper lemmas -/

theorem Urls.reset_idem {σ : Type} (s : Urls σ) (C : Classifier σ) :
    (s.reset C).reset C = s.reset C := rfl

theorem Urls.reset_fields {σ : Type} (s : Urls σ) (C : Classifier σ) :
    (s.reset C).urls = s.urls ∧ (s.reset C).last_point = s.last_point ∧
      (s.reset C).locator = C.init ∧ (s.reset C).state = UrlLocation.Reset ∧
      (s.reset C).scheme_buffer = [] :=
  ⟨rfl, rfl, rfl, rfl, rfl⟩

theorem Url.extend_line_ne_nil (u : Url) (a b : Point) (c : Rgb) (d : Nat) :
    (u.extend_line a b c d).lines ≠ [] := by
  simp only [Url.extend_line]
  split <;> simp

theorem Url.extend_line_end_offset (u : Url) (a b : Point) (c : Rgb) (d : Nat) :
    (u.extend_line a b c d).end_offset = d := by
  simp only [Url.extend_line]

theorem Url.extend_line_getLast_end (u : Url) (a b : Point) (c : Rgb) (d : Nat) :
    ((u.extend_line a b c d).lines.getLastD RenderLine.default).end_ = b := by
  simp only [Url.extend_line]
  split <;> simp [List.getLastD_concat]

theorem Urls.extend_url_concat {σ : Type} (t : Urls σ) (X : List Url) (u : Url)
    (a b : Point) (c : Rgb) (d : Nat) (h : t.urls = X ++ [u]) :
    t.extend_url a b c d = { t with urls := X ++ [u.extend_line a b c d] } := by
  unfold Urls.extend_url
  rw [h]
  simp

theorem Urls.extend_url_other_fields {σ : Type} (t : Urls σ) (a b : Point) (c : Rgb) (d : Nat) :
    (t.extend_url a b c d).locator = t.locator ∧ (t.extend_url a b c d).state = t.state ∧
      (t.extend_url a b c d).scheme_buffer = t.scheme_buffer ∧
      (t.extend_url a b c d).last_point = t.last_point := by
  unfold Urls.extend_url
  split <;> exact ⟨rfl, rfl, rfl, rfl⟩

theorem Urls.foldl_extend_url_concat {σ : Type} (off : Nat) (buf : List (Point × Rgb)) :
    ∀ (t : Urls σ) (X : List Url) (u : Url), t.urls = X ++ [u] →
      buf.foldl (fun (t : Urls σ) (pc : Point × Rgb) => t.extend_url pc.1 pc.1 pc.2 off) t
        = { t with urls :=
              X ++ [buf.foldl (fun (v : Url) (pc : Point × Rgb) =>
                v.extend_line pc.1 pc.1 pc.2 off) u] } := by
  induction buf with
  | nil =>
    intro t X u h
    simp only [List.foldl_nil]
    conv_rhs => rw [← h]
  | cons pc rest ih =>
    intro t X u h
    simp only [List.foldl_cons]
    rw [Urls.extend_url_concat t X u pc.1 pc.1 pc.2 off h]
    exact ih _ X _ rfl

theorem Point.toIdx_ofIdx (w i : Nat) : (Point.ofIdx w i).toIdx w = i := by
  simp only [Point.ofIdx, Point.toIdx]
  rw [Nat.mul_comm]
  exact Nat.div_add_mod i w

theorem find?_eq_some_first {α : Type} (q : α → Bool) :
    ∀ (l : List α) (u : α), l.find? q = some u →
      ∃ pre post, l = pre ++ u :: post ∧ q u = true ∧ ∀ v ∈ pre, q v = false := by
  intro l
  induction l with
  | nil => intro u h; simp [List.find?] at h
  | cons a t ih =>
    intro u h
    by_cases hq : q a
    · rw [List.find?_cons_of_pos _ hq] at h
      obtain rfl : a = u := Option.some.inj h
      exact ⟨[], t, rfl, hq, by simp⟩
    · rw [List.find?_cons_of_neg _ (by simpa using hq)] at h
      obtain ⟨pre, post, hl, hu, hpre⟩ := ih u h
      refine ⟨a :: pre, post, by simp [hl], hu, ?_⟩
      intro v hv
      rcases List.mem_cons.mp hv with rfl | hv
      · simpa using hq
      · exact hpre v hv

/-! Claim theorems -/

/-- C9: reset re-creates the classifier, resets the classification
state and clears the pending-scheme buffer, never modifies the
committed span list (nor the last visited point), and is idempotent:
applying reset twice yields exactly the same tracker state as applying
it once. -/
theorem c9_reset_total_idempotent {σ : Type} (s : Urls σ) (C : Classifier σ) :
    (s.reset C).locator = C.init ∧ (s.reset C).state = UrlLocation.Reset ∧
      (s.reset C).scheme_buffer = [] ∧ (s.reset C).urls = s.urls ∧
      (s.reset C).last_point = s.last_point ∧ (s.reset C).reset C = s.reset C :=
  ⟨rfl, rfl, rfl, rfl, rfl, rfl⟩

/-- C8: a segment-extend operation with (point, endPoint, color,
trailingExclude) always overwrites the trailing-exclude count of the
span with the latest value; when the last segment exists and has the
same color, that segment end is set to endPoint; otherwise a new
segment with the given start, end and color is appended; and
Urls.extend_url applies exactly this operation to the current (last
committed) span. -/
theorem c8_segment_extend (u : Url) (p e : Point) (c : Rgb) (off : Nat) :
    (u.extend_line p e c off).end_offset = off ∧
    (∀ last, u.lines.getLast? = some last → last.color = c →
        (u.extend_line p e c off).lines = u.lines.dropLast ++ [{ last with end_ := e }]) ∧
    ((u.lines.getLast?).map RenderLine.color ≠ some c →
        (u.extend_line p e c off).lines = u.lines ++ [{ start := p, end_ := e, color := c }]) ∧
    (∀ {σ : Type} (t : Urls σ) (X : List Url), t.urls = X ++ [u] →
        t.extend_url p e c off = { t with urls := X ++ [u.extend_line p e c off] }) := by
  refine ⟨Url.extend_line_end_offset u p e c off, ?_, ?_, ?_⟩
  · intro last hlast hcol
    have hD : u.lines.getLastD RenderLine.default = last := by
      rw [List.getLastD_eq_getLast?, hlast]
      rfl
    simp only [Url.extend_line]
    rw [if_pos (by rw [hlast]; simp [hcol]), hD]
  · intro hne
    simp only [Url.extend_line]
    rw [if_neg hne]
  · intro σ t X h
    exact Urls.extend_url_concat t X u p e c off h

/-- Closed witness for C8 at a concrete span: extending with the same
color rewrites the last segment end in place, a different color
appends a new segment, and the trailing-exclude count is overwritten. -/
theorem c8_segment_extend_witness :
    (exUrl.extend_line ⟨0, 10⟩ ⟨0, 10⟩ Rgb.default 1).lines =
        [{ start := ⟨0, 5⟩, end_ := ⟨0, 10⟩, color := Rgb.default }] ∧
      (exUrl.extend_line ⟨0, 10⟩ ⟨0, 10⟩ Rgb.default 1).end_offset = 1 := by
  constructor
  · exact (c8_segment_extend exUrl ⟨0, 10⟩ ⟨0, 10⟩ Rgb.default 1).2.1
      { start := ⟨0, 5⟩, end_ := ⟨0, 9⟩, color := Rgb.default } (by decide) (by decide)
  · exact (c8_segment_extend exUrl ⟨0, 10⟩ ⟨0, 10⟩ Rgb.default 1).1

/-- C1: the end point of a committed span is computed at query time
from its stored data alone: its scan-order index equals the index of
the last segment end point minus the current trailing-exclude count in
the stored grid width; growing the trailing-exclude count leaves the
stored segment sequence unchanged in length and content and shrinks
the end point in scan order, strictly whenever the grown count still
reaches inside the span. -/
theorem c1_end_query_time_shrink (u : Url) (k : Nat) :
    ({ u with end_offset := u.end_offset + k } : Url).lines = u.lines ∧
    (Url.end_ u).toIdx u.num_cols
      = ((u.lines.getLastD RenderLine.default).end_).toIdx u.num_cols - u.end_offset ∧
    (Url.end_ { u with end_offset := u.end_offset + k }).toIdx u.num_cols
      ≤ (Url.end_ u).toIdx u.num_cols ∧
    (0 < k →
      u.end_offset + k ≤ ((u.lines.getLastD RenderLine.default).end_).toIdx u.num_cols →
      (Url.end_ { u with end_offset := u.end_offset + k }).toIdx u.num_cols
        < (Url.end_ u).toIdx u.num_cols) := by
  refine ⟨rfl, ?_, ?_, ?_⟩
  · simp only [Url.end_, Point.sub, Point.toIdx_ofIdx]
  · simp only [Url.end_, Point.sub, Point.toIdx_ofIdx]
    omega
  · intro hk hle
    simp only [Url.end_, Point.sub, Point.toIdx_ofIdx] at hle ⊢
    omega

/-- Closed witness for C1 at the concrete span exUrl with the
trailing-exclude count grown from 0 to 1: the segments are untouched
and the end point strictly retreats. -/
theorem c1_end_query_time_shrink_witness :
    ({ exUrl with end_offset := exUrl.end_offset + 1 } : Url).lines = exUrl.lines ∧
      (Url.end_ { exUrl with end_offset := exUrl.end_offset + 1 }).toIdx exUrl.num_cols
        < (Url.end_ exUrl).toIdx exUrl.num_cols :=
  ⟨(c1_end_query_time_shrink exUrl 1).1,
    (c1_end_query_time_shrink exUrl 1).2.2.2 (by decide) (by decide)⟩

/-- C3: find_at scans the committed spans in commit order and returns
the first span whose inclusive scan-order range from span start to
span end contains the point; for every point contained in no committed
span it returns none rather than failing. -/
theorem c3_find_at_first_match {σ : Type} (s : Urls σ) (p : Point) :
    (∀ u : Url, u.contains_point p = (Point.leb u.start p && Point.leb p u.end_)) ∧
    (∀ u, s.find_at p = some u →
        ∃ pre post, s.urls = pre ++ u :: post ∧ u.contains_point p = true ∧
          ∀ v ∈ pre, v.contains_point p = false) ∧
    ((∀ u ∈ s.urls, u.contains_point p = false) → s.find_at p = none) := by
  refine ⟨fun _ => rfl, ?_, ?_⟩
  · intro u h
    exact find?_eq_some_first _ s.urls u h
  · intro h
    unfold Urls.find_at
    rw [List.find?_eq_none]
    intro x hx
    simp [h x hx]

/-- Closed witness for C3 at the concrete tracker exUrls: the point
(1, 0) lies in no committed span and find_at returns none. -/
theorem c3_find_at_first_match_witness : exUrls.find_at ⟨1, 0⟩ = none :=
  (c3_find_at_first_match exUrls ⟨1, 0⟩).2.2 (by decide)

/-- C2: highlighted returns none whenever a selection is active, or
the pointer is outside the text area, or no launcher is configured, or
the held modifiers do not exactly equal the required ones (shift being
additionally required in mouse mode), or the primary button is
pressed; in every other case it returns exactly find_at at the current
pointer grid position. -/
theorem c2_highlighted_gating {σ : Type} (s : Urls σ) (config : Config) (mouse : Mouse)
    (mods : ModifiersState) (mouse_mode selection : Bool) :
    ((selection = true ∨ mouse.inside_text_area = false ∨ config.launcher = none ∨
        (if mouse_mode then { config.url_mods with shift := true } else config.url_mods) ≠ mods ∨
        mouse.left_button_state = ElementState.Pressed) →
      s.highlighted config mouse mods mouse_mode selection = none) ∧
    (selection = false → mouse.inside_text_area = true → config.launcher ≠ none →
      (if mouse_mode then { config.url_mods with shift := true } else config.url_mods) = mods →
      mouse.left_button_state ≠ ElementState.Pressed →
      s.highlighted config mouse mods mouse_mode selection
        = s.find_at ⟨mouse.line, mouse.column⟩) := by
  constructor
  · intro h
    rcases h with h | h | h | h | h <;>
      simp [Urls.highlighted, h, Option.isNone_iff_eq_none]
  · intro h1 h2 h3 h4 h5
    simp [Urls.highlighted, h1, h2, h4, h5, Option.isNone_iff_eq_none, h3]

/-- Closed witness for C2 at a concrete tracker, config and pointer
state with every gate open: highlighted delegates to find_at at the
pointer position. -/
theorem c2_highlighted_gating_witness :
    exUrls.highlighted exConfig exMouse ⟨false, false, false, false⟩ false false
      = exUrls.find_at ⟨0, 7⟩ :=
  (c2_highlighted_gating exUrls exConfig exMouse ⟨false, false, false, false⟩ false false).2
    rfl rfl (by decide) (by decide) (by decide)

theorem Urls.update_transition_url_scheme {σ : Type} (C : Classifier σ) (num_cols : Nat)
    (cell : RenderableCell) (endp : Point) (s2 : Urls σ) (len off : Nat)
    (h2 : s2.state = UrlLocation.Url len off) :
    Urls.update_transition C num_cols cell endp UrlLocation.Scheme s2
      = { s2 with
            scheme_buffer := [],
            urls := s2.urls ++ [Url.extend_line
              (s2.scheme_buffer.foldl
                (fun (v : Url) (pc : Point × Rgb) => v.extend_line pc.1 pc.1 pc.2 off)
                { lines := [], end_offset := off, num_cols := num_cols })
              cell.point endp cell.fg off] } := by
  obtain ⟨loc, urls, buf, lp, st⟩ := s2
  replace h2 : st = UrlLocation.Url len off := h2
  subst h2
  have step : Urls.update_transition C num_cols cell endp UrlLocation.Scheme
      ⟨loc, urls, buf, lp, UrlLocation.Url len off⟩
      = (buf.foldl (fun (t : Urls σ) (pc : Point × Rgb) => t.extend_url pc.1 pc.1 pc.2 off)
          ⟨loc, urls ++ [({ lines := [], end_offset := off, num_cols := num_cols } : Url)],
            [], lp, UrlLocation.Url len off⟩).extend_url cell.point endp cell.fg off := rfl
  rw [step, Urls.foldl_extend_url_concat off buf _ urls _ rfl,
    Urls.extend_url_concat _ urls _ cell.point endp cell.fg off rfl]

theorem Urls.update_transition_url_url {σ : Type} (C : Classifier σ) (num_cols : Nat)
    (cell : RenderableCell) (endp : Point) (s2 : Urls σ) (len off len2 off2 : Nat)
    (h2 : s2.state = UrlLocation.Url len off) :
    Urls.update_transition C num_cols cell endp (UrlLocation.Url len2 off2) s2
      = s2.extend_url cell.point endp cell.fg off := by
  obtain ⟨loc, urls, buf, lp, st⟩ := s2
  replace h2 : st = UrlLocation.Url len off := h2
  subst h2
  rfl

theorem Urls.update_transition_url_reset {σ : Type} (C : Classifier σ) (num_cols : Nat)
    (cell : RenderableCell) (endp : Point) (s2 : Urls σ) (len off : Nat)
    (h2 : s2.state = UrlLocation.Url len off) :
    Urls.update_transition C num_cols cell endp UrlLocation.Reset s2 = s2 := by
  obtain ⟨loc, urls, buf, lp, st⟩ := s2
  replace h2 : st = UrlLocation.Url len off := h2
  subst h2
  rfl

theorem Urls.update_transition_scheme {σ : Type} (C : Classifier σ) (num_cols : Nat)
    (cell : RenderableCell) (endp : Point) (last_state : UrlLocation) (s2 : Urls σ)
    (h2 : s2.state = UrlLocation.Scheme) :
    Urls.update_transition C num_cols cell endp last_state s2
      = { s2 with scheme_buffer := s2.scheme_buffer ++ [(cell.point, cell.fg)] } := by
  obtain ⟨loc, urls, buf, lp, st⟩ := s2
  replace h2 : st = UrlLocation.Scheme := h2
  subst h2
  rfl

theorem Urls.update_transition_reset {σ : Type} (C : Classifier σ) (num_cols : Nat)
    (cell : RenderableCell) (endp : Point) (last_state : UrlLocation) (s2 : Urls σ)
    (h2 : s2.state = UrlLocation.Reset) :
    Urls.update_transition C num_cols cell endp last_state s2 = s2.reset C := by
  obtain ⟨loc, urls, buf, lp, st⟩ := s2
  replace h2 : st = UrlLocation.Reset := h2
  subst h2
  rfl

theorem Urls.update_spacer_url {σ : Type} (C : Classifier σ) (s : Urls σ) (num_cols : Nat)
    (cell : RenderableCell) (len off : Nat)
    (hs : cell.flags.leading_wide_char_spacer = true)
    (hgap : ¬(cell.point ≠ Point.default ∧ some (cell.point.sub num_cols 1) ≠ s.last_point))
    (hst : s.state = UrlLocation.Url len off) :
    Urls.update C s num_cols cell
      = Urls.extend_url
          { s with last_point := some (if cell.flags.wide_char
              then { cell.point with column := cell.point.column + 1 } else cell.point) }
          cell.point
          (if cell.flags.wide_char then { cell.point with column := cell.point.column + 1 }
           else cell.point)
          cell.fg (if off ≠ 0 then off + 1 else off) := by
  simp only [Urls.update, if_neg hgap, if_pos hs, hst]

theorem Urls.update_spacer_not_url {σ : Type} (C : Classifier σ) (s : Urls σ) (num_cols : Nat)
    (cell : RenderableCell)
    (hs : cell.flags.leading_wide_char_spacer = true)
    (hgap : ¬(cell.point ≠ Point.default ∧ some (cell.point.sub num_cols 1) ≠ s.last_point))
    (hst : ∀ len off, s.state ≠ UrlLocation.Url len off) :
    Urls.update C s num_cols cell
      = { s with last_point := some (if cell.flags.wide_char
            then { cell.point with column := cell.point.column + 1 } else cell.point) } := by
  simp only [Urls.update, if_neg hgap, if_pos hs]

theorem Urls.update_advance_eq {σ : Type} (C : Classifier σ) (s : Urls σ) (num_cols : Nat)
    (cell : RenderableCell)
    (hs : cell.flags.leading_wide_char_spacer = false)
    (hgap : ¬(cell.point ≠ Point.default ∧ some (cell.point.sub num_cols 1) ≠ s.last_point)) :
    Urls.update C s num_cols cell =
      (if cell.point.column + 1 = num_cols ∧ cell.flags.wrapline = false
       then (Urls.update_transition C num_cols cell
              (if cell.flags.wide_char then { cell.point with column := cell.point.column + 1 }
               else cell.point)
              s.state
              { s with
                  last_point := some (if cell.flags.wide_char
                    then { cell.point with column := cell.point.column + 1 } else cell.point),
                  locator := (C.advance s.locator cell.character).1,
                  state := (C.advance s.locator cell.character).2 }).reset C
       else Urls.update_transition C num_cols cell
              (if cell.flags.wide_char then { cell.point with column := cell.point.column + 1 }
               else cell.point)
              s.state
              { s with
                  last_point := some (if cell.flags.wide_char
                    then { cell.point with column := cell.point.column + 1 } else cell.point),
                  locator := (C.advance s.locator cell.character).1,
                  state := (C.advance s.locator cell.character).2 }) := by
  simp only [Urls.update, if_neg hgap, hs, Bool.false_eq_true, if_false]

theorem Urls.update_gap_eq {σ : Type} (C : Classifier σ) (s : Urls σ) (num_cols : Nat)
    (cell : RenderableCell) (hp : cell.point ≠ Point.default)
    (hgap : some (cell.point.sub num_cols 1) ≠ s.last_point) :
    Urls.update C s num_cols cell = Urls.update C (s.reset C) num_cols cell := by
  simp only [Urls.update, Urls.reset, if_pos (⟨hp, hgap⟩ : _ ∧ _)]

theorem Urls.update_gap_spacer {σ : Type} (C : Classifier σ) (s : Urls σ) (num_cols : Nat)
    (cell : RenderableCell) (hp : cell.point ≠ Point.default)
    (hgap : some (cell.point.sub num_cols 1) ≠ s.last_point)
    (hs : cell.flags.leading_wide_char_spacer = true) :
    Urls.update C s num_cols cell
      = { s.reset C with last_point := some (if cell.flags.wide_char
            then { cell.point with column := cell.point.column + 1 } else cell.point) } := by
  simp only [Urls.update, Urls.reset, if_pos (⟨hp, hgap⟩ : _ ∧ _), if_pos hs]

theorem Urls.update_gap_advance {σ : Type} (C : Classifier σ) (s : Urls σ) (num_cols : Nat)
    (cell : RenderableCell) (hp : cell.point ≠ Point.default)
    (hgap : some (cell.point.sub num_cols 1) ≠ s.last_point)
    (hs : cell.flags.leading_wide_char_spacer = false) :
    Urls.update C s num_cols cell =
      (if cell.point.column + 1 = num_cols ∧ cell.flags.wrapline = false
       then (Urls.update_transition C num_cols cell
              (if cell.flags.wide_char then { cell.point with column := cell.point.column + 1 }
               else cell.point)
              UrlLocation.Reset
              { s.reset C with
                  last_point := some (if cell.flags.wide_char
                    then { cell.point with column := cell.point.column + 1 } else cell.point),
                  locator := (C.advance C.init cell.character).1,
                  state := (C.advance C.init cell.character).2 }).reset C
       else Urls.update_transition C num_cols cell
              (if cell.flags.wide_char then { cell.point with column := cell.point.column + 1 }
               else cell.point)
              UrlLocation.Reset
              { s.reset C with
                  last_point := some (if cell.flags.wide_char
                    then { cell.point with column := cell.point.column + 1 } else cell.point),
                  locator := (C.advance C.init cell.character).1,
                  state := (C.advance C.init cell.character).2 }) := by
  simp only [Urls.update, Urls.reset, if_pos (⟨hp, hgap⟩ : _ ∧ _), hs, Bool.false_eq_true,
    if_false]

theorem UrlsInv_reset {σ : Type} (C : Classifier σ) (s : Urls σ)
    (h1 : ∀ u ∈ s.urls, u.lines ≠ []) : UrlsInv C (s.reset C) :=
  ⟨h1, fun _ => rfl, fun len off hlo => UrlLocation.noConfusion hlo⟩

theorem UrlsInv_last_point {σ : Type} (C : Classifier σ) (s : Urls σ) (x : Option Point) :
    UrlsInv C { s with last_point := x } ↔ UrlsInv C s :=
  Iff.rfl

theorem UrlsInv_extend_url {σ : Type} (t : Urls σ) (a b : Point) (c : Rgb) (d : Nat)
    (h1 : ∀ u ∈ t.urls, u.lines ≠ []) (hne : t.urls ≠ []) :
    (∀ u ∈ (t.extend_url a b c d).urls, u.lines ≠ []) ∧ (t.extend_url a b c d).urls ≠ [] := by
  rcases List.eq_nil_or_concat t.urls with h | ⟨X, u, hXu⟩
  · exact absurd h hne
  · rw [List.concat_eq_append] at hXu
    rw [Urls.extend_url_concat t X u a b c d hXu]
    constructor
    · intro v hv
      rcases List.mem_append.mp hv with hv | hv
      · exact h1 v (by rw [hXu]; exact List.mem_append_left _ hv)
      · rw [List.mem_singleton.mp hv]
        exact Url.extend_line_ne_nil u a b c d
    · simp

/-- C4 (amended): for every cell processed by update whose column is
the last column of its row and whose flags mark neither a soft line
wrap nor a leading wide-char spacer, a reset is forced after
processing that cell regardless of classifier state: the
classification becomes Reset, the pending-scheme buffer is cleared and
the classifier is re-created, so no recognized span continues onto the
next row. -/
theorem c4_hard_linebreak_reset {σ : Type} (C : Classifier σ) (s : Urls σ) (num_cols : Nat)
    (cell : RenderableCell)
    (hcol : cell.point.column + 1 = num_cols)
    (hwrap : cell.flags.wrapline = false)
    (hs : cell.flags.leading_wide_char_spacer = false) :
    (Urls.update C s num_cols cell).state = UrlLocation.Reset ∧
      (Urls.update C s num_cols cell).scheme_buffer = [] ∧
      (Urls.update C s num_cols cell).locator = C.init := by
  simp only [Urls.update, hs, Bool.false_eq_true, if_false,
    if_pos (⟨hcol, hwrap⟩ : _ ∧ _), Urls.reset]
  exact ⟨trivial, trivial, trivial⟩

/-- Closed witness for the amended C4: a plain cell in the last column
of a non-wrapped row resets the tracker even though the classifier was
mid-URL. -/
theorem c4_hard_linebreak_reset_witness :
    (Urls.update (scriptClassifier []) exUrlsSpacer 3 exHardBreakCell).state
      = UrlLocation.Reset :=
  (c4_hard_linebreak_reset (scriptClassifier []) exUrlsSpacer 3 exHardBreakCell
    (by decide) (by decide) (by decide)).1

/-- Counterexample to C4 as stated: a leading wide-char spacer cell in
the last column of a row without the soft-wrap flag returns from
update before the hard-linebreak check, so no reset is forced — the
classification stays InUrl and the classifier is not re-created. -/
theorem c4_hard_linebreak_counterexample :
    exSpacerCell.point.column + 1 = 3 ∧
      exSpacerCell.flags.wrapline = false ∧
      (Urls.update (scriptClassifier []) exUrlsSpacer 3 exSpacerCell).state
        ≠ UrlLocation.Reset ∧
      (Urls.update (scriptClassifier []) exUrlsSpacer 3 exSpacerCell).locator
        ≠ (scriptClassifier []).init := by
  decide

/-- C5: a trailing spacer cell of a wide character already accounted
for, arriving with no visitation gap while the last classification is
InUrl, makes update extend the last committed span to the spacer cell
end point with the adjusted trailing-exclude count and return without
advancing the classifier: the resulting tracker equals extend_url of
the last-point-updated state, its classifier state and classification
are unchanged, and the last committed span now has its final segment
ending at the spacer cell end point with the adjusted count. -/
theorem c5_wide_spacer_extends {σ : Type} (C : Classifier σ) (s : Urls σ) (num_cols : Nat)
    (cell : RenderableCell) (len off : Nat)
    (hs : cell.flags.leading_wide_char_spacer = true)
    (hgap : ¬(cell.point ≠ Point.default ∧ some (cell.point.sub num_cols 1) ≠ s.last_point))
    (hst : s.state = UrlLocation.Url len off) :
    Urls.update C s num_cols cell
      = Urls.extend_url
          { s with last_point := some (if cell.flags.wide_char
              then { cell.point with column := cell.point.column + 1 } else cell.point) }
          cell.point
          (if cell.flags.wide_char then { cell.point with column := cell.point.column + 1 }
           else cell.point)
          cell.fg (if off ≠ 0 then off + 1 else off) ∧
    (Urls.update C s num_cols cell).locator = s.locator ∧
    (Urls.update C s num_cols cell).state = s.state ∧
    (∀ X u, s.urls = X ++ [u] →
      (Urls.update C s num_cols cell).urls
          = X ++ [u.extend_line cell.point
              (if cell.flags.wide_char then { cell.point with column := cell.point.column + 1 }
               else cell.point) cell.fg (if off ≠ 0 then off + 1 else off)] ∧
      ((u.extend_line cell.point
          (if cell.flags.wide_char then { cell.point with column := cell.point.column + 1 }
           else cell.point) cell.fg
          (if off ≠ 0 then off + 1 else off)).lines.getLastD RenderLine.default).end_
        = (if cell.flags.wide_char then { cell.point with column := cell.point.column + 1 }
           else cell.point) ∧
      (u.extend_line cell.point
          (if cell.flags.wide_char then { cell.point with column := cell.point.column + 1 }
           else cell.point) cell.fg
          (if off ≠ 0 then off + 1 else off)).end_offset
        = (if off ≠ 0 then off + 1 else off)) := by
  have h1 := Urls.update_spacer_url C s num_cols cell len off hs hgap hst
  refine ⟨h1, ?_, ?_, ?_⟩
  · rw [h1]
    exact (Urls.extend_url_other_fields _ _ _ _ _).1
  · rw [h1]
    exact (Urls.extend_url_other_fields _ _ _ _ _).2.1
  · intro X u hXu
    rw [h1, Urls.extend_url_concat _ X u _ _ _ _ (by exact hXu)]
    exact ⟨rfl, Url.extend_line_getLast_end u _ _ _ _, Url.extend_line_end_offset u _ _ _ _⟩

/-- Closed witness for C5: the concrete spacer cell extends the single
committed span of exUrlsSpacer to its own end point (0, 2) without
touching the classifier state. -/
theorem c5_wide_spacer_extends_witness :
    (Urls.update (scriptClassifier []) exUrlsSpacer 3 exSpacerCell).locator
        = exUrlsSpacer.locator ∧
      (Urls.update (scriptClassifier []) exUrlsSpacer 3 exSpacerCell).urls
        = [] ++ [Url.extend_line
            { lines := [{ start := ⟨0, 0⟩, end_ := ⟨0, 1⟩, color := Rgb.default }]
              end_offset := 0
              num_cols := 3 } ⟨0, 2⟩ ⟨0, 2⟩ Rgb.default 0] :=
  ⟨(c5_wide_spacer_extends (scriptClassifier []) exUrlsSpacer 3 exSpacerCell 2 0
      (by decide) (by decide) (by decide)).2.1,
    ((c5_wide_spacer_extends (scriptClassifier []) exUrlsSpacer 3 exSpacerCell 2 0
      (by decide) (by decide) (by decide)).2.2.2 []
      { lines := [{ start := ⟨0, 0⟩, end_ := ⟨0, 1⟩, color := Rgb.default }]
        end_offset := 0
        num_cols := 3 } (by decide)).1⟩

/-- C6: when the incoming cell is not the direct scan-order successor
of the previously visited cell (and is not the very first cell, whose
point is the origin), update behaves exactly as if reset — classifier
re-created, classification cleared, pending-scheme buffer discarded —
had been applied before the cell is classified: updating the stale
tracker equals updating its reset, and in particular the stale
pending-scheme buffer has no influence on the result. -/
theorem c6_gap_reset_before_classification {σ : Type} (C : Classifier σ) (s : Urls σ)
    (num_cols : Nat) (cell : RenderableCell)
    (hp : cell.point ≠ Point.default)
    (hgap : some (cell.point.sub num_cols 1) ≠ s.last_point) :
    Urls.update C s num_cols cell = Urls.update C (s.reset C) num_cols cell ∧
    (∀ buf, Urls.update C { s with scheme_buffer := buf } num_cols cell
        = Urls.update C s num_cols cell) := by
  constructor
  · exact Urls.update_gap_eq C s num_cols cell hp hgap
  · intro buf
    rw [Urls.update_gap_eq C { s with scheme_buffer := buf } num_cols cell hp (by exact hgap),
      Urls.update_gap_eq C s num_cols cell hp hgap,
      show ({ s with scheme_buffer := buf } : Urls σ).reset C = s.reset C from rfl]

/-- Closed witness for C6 at the concrete stale tracker: updating it
with the discontinuous cell gives the same tracker as updating its
reset, and replacing its stale buffer with an empty one changes
nothing. -/
theorem c6_gap_reset_before_classification_witness :
    Urls.update (scriptClassifier []) exUrlsStale 10 exCellA
        = Urls.update (scriptClassifier []) (exUrlsStale.reset (scriptClassifier [])) 10
            exCellA ∧
      Urls.update (scriptClassifier []) { exUrlsStale with scheme_buffer := [] } 10 exCellA
        = Urls.update (scriptClassifier []) exUrlsStale 10 exCellA :=
  ⟨(c6_gap_reset_before_classification (scriptClassifier []) exUrlsStale 10 exCellA
      (by decide) (by decide)).1,
    (c6_gap_reset_before_classification (scriptClassifier []) exUrlsStale 10 exCellA
      (by decide) (by decide)).2 []⟩

/-- C7: when the classifier transitions from Scheme to Url with
trailing-exclude count off, update commits a new span (built from the
empty span with the current grid width and count off), flushes every
buffered pending-scheme pair into it in order as extend operations,
then extends it with the current cell; afterwards the pending-scheme
buffer is empty, and the committed list is the old one with exactly
this one span appended. -/
theorem c7_scheme_to_url_commit {σ : Type} (C : Classifier σ) (s : Urls σ) (num_cols : Nat)
    (cell : RenderableCell) (len off : Nat)
    (hs : cell.flags.leading_wide_char_spacer = false)
    (hgap : ¬(cell.point ≠ Point.default ∧ some (cell.point.sub num_cols 1) ≠ s.last_point))
    (hst : s.state = UrlLocation.Scheme)
    (hadv : (C.advance s.locator cell.character).2 = UrlLocation.Url len off) :
    (Urls.update C s num_cols cell).urls
      = s.urls ++ [Url.extend_line
          (s.scheme_buffer.foldl
            (fun (v : Url) (pc : Point × Rgb) => v.extend_line pc.1 pc.1 pc.2 off)
            { lines := [], end_offset := off, num_cols := num_cols })
          cell.point
          (if cell.flags.wide_char then { cell.point with column := cell.point.column + 1 }
           else cell.point) cell.fg off] ∧
    (Urls.update C s num_cols cell).scheme_buffer = [] := by
  rw [Urls.update_advance_eq C s num_cols cell hs hgap, hst,
    Urls.update_transition_url_scheme C num_cols cell _ _ len off (by exact hadv)]
  split
  · exact ⟨rfl, rfl⟩
  · exact ⟨rfl, rfl⟩

/-- Closed witness for C7 at the concrete in-scheme tracker: the
confirming cell commits one span holding the flushed scheme cell and
the current cell, and the buffer ends empty. -/
theorem c7_scheme_to_url_commit_witness :
    (Urls.update exC7 exUrlsScheme 10 exCellA).scheme_buffer = [] ∧
      (Urls.update exC7 exUrlsScheme 10 exCellA).urls
        = [] ++ [Url.extend_line
            (Url.extend_line { lines := [], end_offset := 0, num_cols := 10 }
              ⟨0, 4⟩ ⟨0, 4⟩ Rgb.default 0)
            ⟨0, 5⟩ ⟨0, 5⟩ Rgb.default 0] :=
  ⟨(c7_scheme_to_url_commit exC7 exUrlsScheme 10 exCellA 3 0
      (by decide) (by decide) (by decide) (by decide)).2,
    (c7_scheme_to_url_commit exC7 exUrlsScheme 10 exCellA 3 0
      (by decide) (by decide) (by decide) (by decide)).1⟩

theorem UrlsInv_update_transition {σ : Type} (C : Classifier σ) (w : Nat)
    (cell : RenderableCell) (endp : Point) (ls : UrlLocation) (s2 : Urls σ)
    (h1 : ∀ u ∈ s2.urls, u.lines ≠ [])
    (hurl : ∀ len off, s2.state = UrlLocation.Url len off →
      ls = UrlLocation.Scheme ∨ s2.urls ≠ []) :
    UrlsInv C (Urls.update_transition C w cell endp ls s2) := by
  obtain ⟨loc, urls, buf, lp, st⟩ := s2
  rcases st with ⟨len, off⟩ | _ | _
  · rcases ls with ⟨l2, o2⟩ | _ | _
    · rcases hurl len off rfl with h | hne
      · exact UrlLocation.noConfusion h
      · rw [Urls.update_transition_url_url C w cell endp _ len off l2 o2 rfl]
        have hext := UrlsInv_extend_url _ cell.point endp cell.fg off h1 hne
        refine ⟨hext.1, ?_, fun l o _ => hext.2⟩
        intro h
        have h2 : (⟨loc, urls, buf, lp, UrlLocation.Url len off⟩ : Urls σ).state
            = UrlLocation.Reset :=
          ((Urls.extend_url_other_fields _ cell.point endp cell.fg off).2.1).symm.trans h
        exact UrlLocation.noConfusion h2
    · rw [Urls.update_transition_url_scheme C w cell endp _ len off rfl]
      refine ⟨?_, fun h => UrlLocation.noConfusion h, fun l o _ => by simp⟩
      intro u hu
      rcases List.mem_append.mp hu with hu | hu
      · exact h1 u hu
      · rw [List.mem_singleton.mp hu]
        exact Url.extend_line_ne_nil _ _ _ _ _
    · rw [Urls.update_transition_url_reset C w cell endp _ len off rfl]
      rcases hurl len off rfl with h | hne
      · exact UrlLocation.noConfusion h
      · exact ⟨h1, fun h => UrlLocation.noConfusion h, fun l o _ => hne⟩
  · rw [Urls.update_transition_scheme C w cell endp ls _ rfl]
    exact ⟨h1, fun h => UrlLocation.noConfusion h, fun l o h => UrlLocation.noConfusion h⟩
  · rw [Urls.update_transition_reset C w cell endp ls _ rfl]
    exact UrlsInv_reset C _ h1

/-- C10: with a classifier whose first advance from a fresh instance
never reports InUrl (the external grammar needs a scheme first), the
tracker invariant holds of the fresh tracker and is preserved by every
completed update call: every committed span has a non-empty segment
list — so the first-segment indexing of Url.start and last-segment
indexing of Url.end_ never hit the empty (in Rust panicking) case on a
committed span — and whenever the last classification is InUrl at
least one committed span exists, so the unwrap inside extend_url is
reached only with a span present; a span segment list is empty only
transiently inside the update call that creates it. -/
theorem c10_committed_span_safety {σ : Type} (C : Classifier σ) (hC : FreshNotUrl C) :
    UrlsInv C (Urls.new C) ∧
    (∀ (s : Urls σ) (num_cols : Nat) (cell : RenderableCell),
      UrlsInv C s → UrlsInv C (Urls.update C s num_cols cell)) := by
  constructor
  · refine ⟨?_, fun _ => rfl, fun len off h => UrlLocation.noConfusion h⟩
    intro u hu
    simp [Urls.new] at hu
  · intro s w cell hInv
    obtain ⟨h1, h2, h3⟩ := hInv
    by_cases hgap : (cell.point ≠ Point.default ∧ some (cell.point.sub w 1) ≠ s.last_point)
    · by_cases hsp : cell.flags.leading_wide_char_spacer = true
      · rw [Urls.update_gap_spacer C s w cell hgap.1 hgap.2 hsp]
        exact (UrlsInv_last_point C (s.reset C) _).mpr (UrlsInv_reset C s h1)
      · have hsp' : cell.flags.leading_wide_char_spacer = false := by
          revert hsp
          cases cell.flags.leading_wide_char_spacer <;> simp
        rw [Urls.update_gap_advance C s w cell hgap.1 hgap.2 hsp']
        have htr := UrlsInv_update_transition C w cell
          (if cell.flags.wide_char then { cell.point with column := cell.point.column + 1 }
           else cell.point)
          UrlLocation.Reset
          { s.reset C with
              last_point := some (if cell.flags.wide_char
                then { cell.point with column := cell.point.column + 1 } else cell.point),
              locator := (C.advance C.init cell.character).1,
              state := (C.advance C.init cell.character).2 }
          h1
          (fun len off hA => absurd hA (hC cell.character len off))
        split
        · exact UrlsInv_reset C _ htr.1
        · exact htr
    · by_cases hsp : cell.flags.leading_wide_char_spacer = true
      · rcases hst : s.state with ⟨len, off⟩ | _ | _
        · rw [Urls.update_spacer_url C s w cell len off hsp hgap hst]
          have hext := UrlsInv_extend_url
            { s with last_point := some (if cell.flags.wide_char
                then { cell.point with column := cell.point.column + 1 } else cell.point) }
            cell.point
            (if cell.flags.wide_char then { cell.point with column := cell.point.column + 1 }
             else cell.point)
            cell.fg (if off ≠ 0 then off + 1 else off) h1 (h3 len off hst)
          refine ⟨hext.1, ?_, fun l o _ => hext.2⟩
          intro h
          have hh : s.state = UrlLocation.Reset :=
            ((Urls.extend_url_other_fields
              { s with last_point := some (if cell.flags.wide_char
                  then { cell.point with column := cell.point.column + 1 } else cell.point) }
              cell.point
              (if cell.flags.wide_char then { cell.point with column := cell.point.column + 1 }
               else cell.point)
              cell.fg (if off ≠ 0 then off + 1 else off)).2.1).symm.trans h
          rw [hst] at hh
          exact UrlLocation.noConfusion hh
        · rw [Urls.update_spacer_not_url C s w cell hsp hgap
            (fun len off h => by rw [hst] at h; exact UrlLocation.noConfusion h)]
          exact ⟨h1, h2, h3⟩
        · rw [Urls.update_spacer_not_url C s w cell hsp hgap
            (fun len off h => by rw [hst] at h; exact UrlLocation.noConfusion h)]
          exact ⟨h1, h2, h3⟩
      · have hsp' : cell.flags.leading_wide_char_spacer = false := by
          revert hsp
          cases cell.flags.leading_wide_char_spacer <;> simp
        rw [Urls.update_advance_eq C s w cell hsp' hgap]
        have htr := UrlsInv_update_transition C w cell
          (if cell.flags.wide_char then { cell.point with column := cell.point.column + 1 }
           else cell.point)
          s.state
          { s with
              last_point := some (if cell.flags.wide_char
                then { cell.point with column := cell.point.column + 1 } else cell.point),
              locator := (C.advance s.locator cell.character).1,
              state := (C.advance s.locator cell.character).2 }
          h1 ?_
        · split
          · exact UrlsInv_reset C _ htr.1
          · exact htr
        · intro len off hA
          rcases hst : s.state with ⟨l2, o2⟩ | _ | _
          · exact Or.inr (h3 l2 o2 hst)
          · exact Or.inl rfl
          · exfalso
            have hA' : (C.advance s.locator cell.character).2 = UrlLocation.Url len off := hA
            rw [h2 hst] at hA'
            exact hC cell.character len off hA'

/-- Closed witness for C10 at the scripted classifier whose first
advance reports Scheme: the fresh tracker satisfies the invariant and
one update step preserves it. -/
theorem c10_committed_span_safety_witness :
    UrlsInv (scriptClassifier [UrlLocation.Scheme])
        (Urls.new (scriptClassifier [UrlLocation.Scheme])) ∧
      UrlsInv (scriptClassifier [UrlLocation.Scheme])
        (Urls.update (scriptClassifier [UrlLocation.Scheme])
          (Urls.new (scriptClassifier [UrlLocation.Scheme])) 10 exCellA) := by
  have hC : FreshNotUrl (scriptClassifier [UrlLocation.Scheme]) :=
    fun ch len off h => UrlLocation.noConfusion h
  exact ⟨(c10_committed_span_safety _ hC).1,
    (c10_committed_span_safety _ hC).2 _ 10 exCellA (c10_committed_span_safety _ hC).1⟩
